import Mathlib

/-!
Shallow embedding of the station-resolution core of the garmin-wind-api
repository (src/api/wind.js, src/api/all-stations.js and the iteration
files under src/unnamed/), together with theorems settling the frozen
claims about it.

Modelling conventions:
* JavaScript numbers are modelled as exact rationals (`ℚ`); `NaN` is
  modelled as `none` in `Option ℚ`.  The great-circle distance helper,
  which calls transcendental `Math` functions, is modelled over `ℝ`.
* JSON fields that can be `null` are modelled as `Option` fields.
* `parseFloat` is modelled for the decimal-literal fragment actually fed
  to it by this code (optional sign, digits, optional fractional part,
  any trailing garbage ignored, leading whitespace skipped); exponent
  notation is not modelled, no string in the repository's feeds uses it.
* Network fetches are modelled as explicit inputs: the hourly-feed fetch
  of wind.js becomes a function from the hour offset to a `FetchResult`.
-/

/-- JS truthiness of a nullable string: `null` and the empty string are
falsy, every other string is truthy. -/
def jsTruthy : Option String → Bool
  | none => false
  | some s => s ≠ ""

/-- Longest prefix of decimal digits of a character list, with the rest. -/
def takeDigits : List Char → List Char × List Char
  | [] => ([], [])
  | c :: cs =>
    if c.isDigit then
      let (ds, rest) := takeDigits cs
      (c :: ds, rest)
    else ([], c :: cs)

/-- Numeric value of a list of decimal digit characters. -/
def digitsToNat (ds : List Char) : ℕ :=
  ds.foldl (fun a c => a * 10 + (c.toNat - 48)) 0

/-- Syntactic shape of a successfully parsed decimal literal: a sign, the
integer digits and the fraction digits. -/
structure DecParsed where
  neg : Bool
  ints : List Char
  fracs : List Char
deriving Repr, DecidableEq

/-- Core of the `parseFloat` model on a character list: optional sign,
integer digits, optional `'.'` and fraction digits; `none` models `NaN`.
The result is kept syntactic so concrete runs reduce by `decide`. -/
def parseFloatChars (cs : List Char) : Option DecParsed :=
  let sign : Bool × List Char :=
    match cs with
    | [] => (false, [])
    | c :: r =>
      if c = '-' then (true, r)
      else if c = '+' then (false, r)
      else (false, c :: r)
  let ints : List Char × List Char := takeDigits sign.2
  match ints.2 with
  | [] => if ints.1.isEmpty then none else some ⟨sign.1, ints.1, []⟩
  | c :: r =>
    if c = '.' then
      let fracs := takeDigits r
      if ints.1.isEmpty && fracs.1.isEmpty then none
      else some ⟨sign.1, ints.1, fracs.1⟩
    else if ints.1.isEmpty then none
    else some ⟨sign.1, ints.1, []⟩

/-- Rational value of a parsed decimal literal. -/
def DecParsed.toRat (p : DecParsed) : ℚ :=
  (if p.neg then (-1 : ℚ) else 1) *
    ((digitsToNat p.ints : ℚ) + (digitsToNat p.fracs : ℚ) / (10 : ℚ) ^ p.fracs.length)

/-- Model of JavaScript `parseFloat` on the decimal-literal fragment used
by this repository; leading whitespace is skipped, trailing characters
after the longest numeric prefix are ignored, `none` models `NaN`. -/
def parseFloat (s : String) : Option ℚ :=
  (parseFloatChars (s.data.dropWhile (fun c => c.isWhitespace))).map DecParsed.toRat

/-- Evaluation helper: concrete `parseFloat` runs split into a `decide`
step on characters and a rational computation. -/
theorem parseFloat_eq_some (s : String) (p : DecParsed)
    (h : parseFloatChars (s.data.dropWhile (fun c => c.isWhitespace)) = some p) :
    parseFloat s = some p.toRat := by
  rw [parseFloat, h]; rfl

/-- Evaluation helper for the `NaN` case. -/
theorem parseFloat_eq_none (s : String)
    (h : parseFloatChars (s.data.dropWhile (fun c => c.isWhitespace)) = none) :
    parseFloat s = none := by
  rw [parseFloat, h]; rfl

/-- Replacement of the first `','` by `'.'` in a character list; models
the JS string-pattern `replace(",", ".")`, which only replaces the first
occurrence. -/
def replaceFirstCommaChars : List Char → List Char
  | [] => []
  | c :: cs => if c = ',' then '.' :: cs else c :: replaceFirstCommaChars cs

/-- Model of `str.replace(",", ".")` from wind.js step 5. -/
def replaceFirstComma (s : String) : String :=
  ⟨replaceFirstCommaChars s.data⟩

/-! ## Hour-Fallback Resolver (src/api/wind.js, handler, lines 40-111)

The handler's network effects are made explicit: the hourly feed fetch
becomes a function from the `hourOffset` loop counter (the only part of
the request that varies across iterations) to a `FetchResult`.  Local
date/hour formatting of the URL is not modelled; no claim depends on it. -/

/-- One report of the hourly wind-observation feed: wind.js reads the
keys `Jaam`, `ws10ma` and `wd10ma` (the latter two can be `null`). -/
structure WindEntry where
  Jaam : String
  ws10ma : Option String
  wd10ma : Option String
deriving Repr, DecidableEq

/-- Outcome of one hourly-feed fetch: a non-success HTTP status, or a
JSON body whose `entries.entry` list is present or absent. -/
inductive FetchResult where
  | httpError (status : ℕ)
  | ok (entries : Option (List WindEntry))
deriving Repr, DecidableEq

/-- HTTP-level success of a fetch (`windRes.ok` in wind.js). -/
def FetchResult.isOk : FetchResult → Bool
  | .httpError _ => false
  | .ok _ => true

/-- Terminal outcome of the resolver: a wind answer (a `none` component
models `NaN`), the `NO_DATA` sentinel after an exhausted loop, or the
hard failure thrown on a non-success hourly fetch (`EMHI P2 Error`). -/
inductive WindOutcome where
  | data (windSpeed windDir : Option ℚ)
  | noData
  | httpFailure (status : ℕ)
deriving Repr, DecidableEq

/-- Station lookup of wind.js line 81:
`allStations.find(s => s.Jaam === nameToMatch)`. -/
def findStation (entries : List WindEntry) (name : String) : Option WindEntry :=
  entries.find? (fun s => s.Jaam == name)

/-- Result of one loop iteration of the resolver (wind.js lines 64-107):
hard failure, continue to the next hour offset, or return wind data. -/
inductive StepResult where
  | fail (status : ℕ)
  | skip
  | success (windSpeed windDir : Option ℚ)
deriving Repr, DecidableEq

/-- One iteration of the hour-fallback loop, translated branch by branch
from wind.js lines 64-107. -/
def windStep (name : String) : FetchResult → StepResult
  | .httpError status => .fail status
  | .ok none => .skip
  | .ok (some entries) =>
    match findStation entries name with
    | none => .skip
    | some m =>
      match m.ws10ma, m.wd10ma with
      | some ws, some wd =>
        .success (parseFloat (replaceFirstComma ws)) (parseFloat wd)
      | _, _ => .skip

/-- The fallback loop over a list of hour offsets, also counting how many
hourly-feed fetches were performed. -/
def resolveList (fetch : ℕ → FetchResult) (name : String) :
    List ℕ → WindOutcome × ℕ
  | [] => (.noData, 0)
  | o :: rest =>
    match windStep name (fetch o) with
    | .fail status => (.httpFailure status, 1)
    | .success ws wd => (.data ws wd, 1)
    | .skip =>
      let r := resolveList fetch name rest
      (r.1, r.2 + 1)

/-- Hour offsets tried by wind.js line 56: `hourOffset = 0, 1, 2, 3`. -/
def hourOffsets : List ℕ := [0, 1, 2, 3]

/-- The Hour-Fallback Resolver: wind.js lines 56-111 for a target station
name, with the fetch count made explicit. -/
def resolveWind (fetch : ℕ → FetchResult) (name : String) : WindOutcome × ℕ :=
  resolveList fetch name hourOffsets

/-- Wind data an hour offset yields for the target name, when the fetch
is parseable: the first entry matching the name, provided its wind-speed
and wind-direction fields are both non-null (wind.js lines 71-96). -/
def completeMatch (name : String) : FetchResult → Option (String × String)
  | .httpError _ => none
  | .ok none => none
  | .ok (some entries) =>
    match findStation entries name with
    | none => none
    | some m =>
      match m.ws10ma, m.wd10ma with
      | some ws, some wd => some (ws, wd)
      | _, _ => none

/-- First token of a station name, as computed by the superseded
iterations (`name.split(" ")[0]`, e.g. part_003 line 56). -/
def firstToken (s : String) : String :=
  (s.splitOn " ").headD ""

theorem windStep_skip_of (name : String) (fr : FetchResult)
    (hok : fr.isOk = true) (hnone : completeMatch name fr = none) :
    windStep name fr = .skip := by
  cases fr with
  | httpError s => simp [FetchResult.isOk] at hok
  | ok entries? =>
    cases entries? with
    | none => rfl
    | some entries =>
      cases hf : findStation entries name with
      | none => simp [windStep, hf]
      | some m =>
        obtain ⟨j, ows, owd⟩ := m
        cases ows with
        | none => simp [windStep, hf]
        | some a =>
          cases owd with
          | none => simp [windStep, hf]
          | some b => simp [completeMatch, hf] at hnone

theorem windStep_success_of (name : String) (fr : FetchResult) (ws wd : String)
    (hmatch : completeMatch name fr = some (ws, wd)) :
    windStep name fr =
      .success (parseFloat (replaceFirstComma ws)) (parseFloat wd) := by
  cases fr with
  | httpError s => simp [completeMatch] at hmatch
  | ok entries? =>
    cases entries? with
    | none => simp [completeMatch] at hmatch
    | some entries =>
      cases hf : findStation entries name with
      | none => simp [completeMatch, hf] at hmatch
      | some m =>
        obtain ⟨j, ows, owd⟩ := m
        cases ows with
        | none => simp [completeMatch, hf] at hmatch
        | some a =>
          cases owd with
          | none => simp [completeMatch, hf] at hmatch
          | some b =>
            simp only [completeMatch, hf, Option.some.injEq, Prod.mk.injEq] at hmatch
            simp [windStep, hf, hmatch.1, hmatch.2]

theorem resolveList_skip_prefix (fetch : ℕ → FetchResult) (name : String)
    (pre l : List ℕ) (h : ∀ o ∈ pre, windStep name (fetch o) = .skip) :
    resolveList fetch name (pre ++ l) =
      ((resolveList fetch name l).1, (resolveList fetch name l).2 + pre.length) := by
  induction pre with
  | nil => simp
  | cons o pre ih =>
    have ho : windStep name (fetch o) = .skip := h o (by simp)
    have ih' := ih (fun x hx => h x (by simp [hx]))
    simp only [List.cons_append, resolveList, ho, List.append_eq, ih', List.length_cons]
    exact Prod.ext rfl (by omega)

theorem parseFloat_three_comma_six : parseFloat "3,6" = some 3 := by
  rw [parseFloat_eq_some "3,6" ⟨false, ['3'], []⟩ (by decide)]
  norm_num [DecParsed.toRat, show digitsToNat ['3'] = 3 from rfl,
    show digitsToNat [] = 0 from rfl]

theorem parseFloat_three_dot_six : parseFloat "3.6" = some (18 / 5) := by
  rw [parseFloat_eq_some "3.6" ⟨false, ['3'], ['6']⟩ (by decide)]
  norm_num [DecParsed.toRat, show digitsToNat ['3'] = 3 from rfl,
    show digitsToNat ['6'] = 6 from rfl]

theorem parseFloat_sixty_nine : parseFloat "69.0" = some 69 := by
  rw [parseFloat_eq_some "69.0" ⟨false, ['6', '9'], ['0']⟩ (by decide)]
  norm_num [DecParsed.toRat, show digitsToNat ['6', '9'] = 69 from rfl,
    show digitsToNat ['0'] = 0 from rfl]

theorem parseFloat_norm_comma : parseFloat (replaceFirstComma "3,6") = some (18 / 5) := by
  rw [show replaceFirstComma "3,6" = "3.6" from by decide]
  exact parseFloat_three_dot_six

/-- C1: the first hourOffset (scanning the offsets in order) whose fetch
yields a station entry matching the target name with non-null wind-speed
and wind-direction fields terminates the search at once: the resolver
returns the numeric value of the speed string with the comma decimal
separator normalized to a period and the numeric value of the direction
string, having performed one fetch per offset tried.  (The concrete
"3,6"/"69.0" two-fetch scenario is the witness theorem.) -/
theorem hour_fallback_first_complete_match
    (fetch : ℕ → FetchResult) (name : String)
    (pre post : List ℕ) (k : ℕ) (ws wd : String)
    (hsplit : hourOffsets = pre ++ k :: post)
    (hskip : ∀ o ∈ pre, (fetch o).isOk = true ∧ completeMatch name (fetch o) = none)
    (hmatch : completeMatch name (fetch k) = some (ws, wd)) :
    resolveWind fetch name =
      (.data (parseFloat (replaceFirstComma ws)) (parseFloat wd), pre.length + 1) := by
  rw [resolveWind, hsplit, resolveList_skip_prefix fetch name pre (k :: post)
    (fun o ho => windStep_skip_of name (fetch o) (hskip o ho).1 (hskip o ho).2)]
  rw [show resolveList fetch name (k :: post) =
      (.data (parseFloat (replaceFirstComma ws)) (parseFloat wd), 1) from by
    simp [resolveList, windStep_success_of name (fetch k) ws wd hmatch]]
  exact Prod.ext rfl (by omega)

/-- Feed of the C1 witness scenario: hour offset 0 has the target station
with null wind fields, hour offset 1 has a complete match. -/
def fetchC1 : ℕ → FetchResult := fun o =>
  if o = 0 then .ok (some [⟨"Pirita RJ", none, none⟩])
  else if o = 1 then .ok (some [⟨"Pirita RJ", some "3,6", some "69.0"⟩])
  else .ok none

/-- Witness for C1: the concrete scenario of the claim, returning
windSpeed 3.6, windDir 69.0 after exactly 2 fetches. -/
theorem hour_fallback_first_complete_match_witness :
    resolveWind fetchC1 "Pirita RJ" = (.data (some (18 / 5)) (some 69), 2) := by
  have h := hour_fallback_first_complete_match fetchC1 "Pirita RJ"
    [0] [2, 3] 1 "3,6" "69.0" rfl (by decide) (by decide)
  rw [parseFloat_norm_comma, parseFloat_sixty_nine] at h
  exact h

/-- C5: if none of the four hour offsets yields a matching entry with
non-null wind fields (each fetch succeeding at the HTTP level), the
resolver performs exactly 4 fetches and returns the `NO_DATA` sentinel,
not an error. -/
theorem hour_fallback_exhaustion (fetch : ℕ → FetchResult) (name : String)
    (h : ∀ o ∈ hourOffsets, (fetch o).isOk = true ∧ completeMatch name (fetch o) = none) :
    resolveWind fetch name = (.noData, 4) := by
  have h4 : resolveList fetch name (hourOffsets ++ []) =
      ((resolveList fetch name []).1, (resolveList fetch name []).2 + hourOffsets.length) :=
    resolveList_skip_prefix fetch name hourOffsets []
      (fun o ho => windStep_skip_of name (fetch o) (h o ho).1 (h o ho).2)
  rw [resolveWind, show hourOffsets = hourOffsets ++ [] by simp, h4]
  rfl

/-- Witness for C5: a feed publishing no entry list for any hour. -/
theorem hour_fallback_exhaustion_witness :
    resolveWind (fun _ => .ok none) "Pirita RJ" = (.noData, 4) :=
  hour_fallback_exhaustion (fun _ => .ok none) "Pirita RJ" (by decide)

/-- C6: a non-success HTTP status on the hourly fetch of any offset the
loop reaches aborts the whole resolution as a hard failure after that
very fetch; it is never treated as a reason to continue to the next hour
offset (the fetch count stays at the failing offset's position and the
outcome ignores all later offsets). -/
theorem hour_fallback_transport_failure
    (fetch : ℕ → FetchResult) (name : String)
    (pre post : List ℕ) (k status : ℕ)
    (hsplit : hourOffsets = pre ++ k :: post)
    (hskip : ∀ o ∈ pre, (fetch o).isOk = true ∧ completeMatch name (fetch o) = none)
    (hfail : fetch k = .httpError status) :
    resolveWind fetch name = (.httpFailure status, pre.length + 1) := by
  rw [resolveWind, hsplit, resolveList_skip_prefix fetch name pre (k :: post)
    (fun o ho => windStep_skip_of name (fetch o) (hskip o ho).1 (hskip o ho).2)]
  rw [show resolveList fetch name (k :: post) = (.httpFailure status, 1) from by
    simp [resolveList, hfail, windStep]]
  exact Prod.ext rfl (by omega)

/-- Feed of the C6 witness scenario: offset 0 parseable but empty,
offset 1 answers HTTP 503, offsets 2 and 3 would have data. -/
def fetchC6 : ℕ → FetchResult := fun o =>
  if o = 0 then .ok none
  else if o = 1 then .httpError 503
  else .ok (some [⟨"Pirita RJ", some "3,6", some "69.0"⟩])

/-- Witness for C6: the resolution aborts at the failing second fetch. -/
theorem hour_fallback_transport_failure_witness :
    resolveWind fetchC6 "Pirita RJ" = (.httpFailure 503, 2) :=
  hour_fallback_transport_failure fetchC6 "Pirita RJ"
    [0] [2, 3] 1 503 rfl (by decide) (by decide)

/-- C3: the Hour-Fallback Resolver's station lookup matches a report iff
its `Jaam` field is exactly string-equal to the full target name; an
entry carrying only the first token of the name is never matched. -/
theorem hour_fallback_exact_name_match (entries : List WindEntry) (name : String) :
    (∀ e, findStation entries name = some e → e.Jaam = name) ∧
    ((∃ e ∈ entries, e.Jaam = name) →
      ∃ e, findStation entries name = some e ∧ e.Jaam = name) ∧
    (∀ e, e ∈ entries → e.Jaam = firstToken name → e.Jaam ≠ name →
      findStation entries name ≠ some e) := by
  have h1 : ∀ e, findStation entries name = some e → e.Jaam = name := by
    intro e h
    have := List.find?_some h
    simpa using this
  refine ⟨h1, ?_, ?_⟩
  · rintro ⟨e, he, hn⟩
    cases hf : findStation entries name with
    | none =>
      exfalso
      have := List.find?_eq_none.mp hf e he
      simp [hn] at this
    | some m => exact ⟨m, rfl, h1 m hf⟩
  · intro e _ _ hne hf
    exact hne (h1 e hf)

/-- Witness for C3: with a first-token decoy entry "Pirita" present, the
lookup for "Pirita RJ" selects the exact-name entry. -/
theorem hour_fallback_exact_name_match_witness :
    ∃ e, findStation [⟨"Pirita", some "1,0", some "20.0"⟩,
        ⟨"Pirita RJ", some "3,6", some "69.0"⟩] "Pirita RJ" = some e ∧
      e.Jaam = "Pirita RJ" :=
  (hour_fallback_exact_name_match
    [⟨"Pirita", some "1,0", some "20.0"⟩, ⟨"Pirita RJ", some "3,6", some "69.0"⟩]
    "Pirita RJ").2.1 ⟨⟨"Pirita RJ", some "3,6", some "69.0"⟩, by simp, rfl⟩

/-! ## Feed Merger (src/api/all-stations.js, handler, lines 69-97)

The two feeds arrive as lists of raw reports; `Date.now()` and the
timestamp-string parser `new Date(...).getTime()` (both in milliseconds)
are explicit parameters, so recency arithmetic is exact while calendar
parsing stays out of scope. -/

/-- One raw report of the combined-weather feeds, with every key the
merger reads; any of them can be `null`. -/
structure RawStation where
  Jaam : Option String
  ws10ma : Option String
  wd10ma : Option String
  Time : Option String
  LaiusKraad : Option String
  LaiusMinut : Option String
  LaiusSekund : Option String
  PikkusKraad : Option String
  PikkusMinut : Option String
  PikkusSekund : Option String
deriving Repr, DecidableEq

/-- Field-validity check of all-stations.js lines 86-87: wind speed, wind
direction, timestamp and the two coordinate degree fields are non-null. -/
def fieldsPresent (st : RawStation) : Bool :=
  st.ws10ma.isSome && st.wd10ma.isSome && st.Time.isSome &&
    st.LaiusKraad.isSome && st.PikkusKraad.isSome

/-- Recency check of all-stations.js lines 79-80 and 89-90: the floored
epoch seconds of the observation are at least `now − 7200 s`.  `getTime`
maps the timestamp string to epoch milliseconds, `nowMs` is `Date.now()`.
A `null` timestamp never reaches this check (guarded by `fieldsPresent`);
it is mapped to `false`. -/
def isRecent (getTime : String → ℤ) (nowMs : ℤ) (st : RawStation) : Bool :=
  match st.Time with
  | some t => decide (Int.fdiv nowMs 1000 - 7200 ≤ Int.fdiv (getTime t) 1000)
  | none => false

/-- Per-report condition for entering the station map, dedup aside:
truthy `Jaam` (non-null and non-empty), valid fields, recent timestamp. -/
def survivesFilter (getTime : String → ℤ) (nowMs : ℤ) (st : RawStation) : Bool :=
  jsTruthy st.Jaam && fieldsPresent st && isRecent getTime nowMs st

/-- One iteration of the merger's for-loop (all-stations.js lines 84-95):
the accumulator is the station map in insertion order. -/
def cleanStep (getTime : String → ℤ) (nowMs : ℤ)
    (acc : List RawStation) (st : RawStation) : List RawStation :=
  if jsTruthy st.Jaam && !(acc.any (fun p => p.Jaam == st.Jaam)) then
    if fieldsPresent st && isRecent getTime nowMs st then acc ++ [st]
    else acc
  else acc

/-- The Feed Merger's clean-and-filter pass: concatenate the feeds (inland
before coastal), then fold the reports into the station map; the result is
`Array.from(stationMap.values())`, i.e. first-seen insertion order. -/
def mergeClean (getTime : String → ℤ) (nowMs : ℤ)
    (inland coastal : List RawStation) : List RawStation :=
  (inland ++ coastal).foldl (cleanStep getTime nowMs) []

/-- Entries of a station list carrying a given name. -/
def entriesNamed (name : String) (l : List RawStation) : List RawStation :=
  l.filter (fun s => s.Jaam == some name)

/-- Membership of a name in the station map. -/
def hasName (name : String) (acc : List RawStation) : Bool :=
  acc.any (fun p => p.Jaam == some name)

theorem cleanStep_eq_or (getTime : String → ℤ) (nowMs : ℤ)
    (acc : List RawStation) (st : RawStation) :
    cleanStep getTime nowMs acc st = acc ∨
      cleanStep getTime nowMs acc st = acc ++ [st] := by
  rw [cleanStep]
  split
  · split
    · right; rfl
    · left; rfl
  · left; rfl

theorem hasName_append_single (name : String) (acc : List RawStation) (st : RawStation) :
    hasName name (acc ++ [st]) = (hasName name acc || (st.Jaam == some name)) := by
  simp [hasName]

theorem entriesNamed_append_single_ne (name : String) (acc : List RawStation)
    (st : RawStation) (hj : ¬ st.Jaam = some name) :
    entriesNamed name (acc ++ [st]) = entriesNamed name acc := by
  have hb : (st.Jaam == some name) = false := beq_eq_false_iff_ne.mpr hj
  simp [entriesNamed, List.filter_append, hb]

theorem entriesNamed_append_single_eq (name : String) (acc : List RawStation)
    (st : RawStation) (hj : st.Jaam = some name) :
    entriesNamed name (acc ++ [st]) = entriesNamed name acc ++ [st] := by
  have hb : (st.Jaam == some name) = true := beq_iff_eq.mpr hj
  simp [entriesNamed, List.filter_append, hb]

theorem foldl_entriesNamed_of_hasName (getTime : String → ℤ) (nowMs : ℤ) (name : String) :
    ∀ (l acc : List RawStation), hasName name acc = true →
      entriesNamed name (l.foldl (cleanStep getTime nowMs) acc) = entriesNamed name acc := by
  intro l
  induction l with
  | nil => intro acc _; rfl
  | cons st l ih =>
    intro acc h
    rw [List.foldl_cons]
    by_cases hj : st.Jaam = some name
    · have hstep : cleanStep getTime nowMs acc st = acc := by
        have hany : acc.any (fun p => p.Jaam == st.Jaam) = true := by
          rw [hj]; exact h
        simp [cleanStep, hany]
      rw [hstep]; exact ih acc h
    · rcases cleanStep_eq_or getTime nowMs acc st with hstep | hstep <;> rw [hstep]
      · exact ih acc h
      · rw [ih (acc ++ [st]) (by rw [hasName_append_single]; simp [h]),
          entriesNamed_append_single_ne name acc st hj]

theorem cleanStep_of_not_has (getTime : String → ℤ) (nowMs : ℤ)
    (acc : List RawStation) (st : RawStation)
    (hany : acc.any (fun p => p.Jaam == st.Jaam) = false) :
    cleanStep getTime nowMs acc st =
      if survivesFilter getTime nowMs st then acc ++ [st] else acc := by
  simp only [cleanStep, survivesFilter, hany, Bool.not_false, Bool.and_true]
  rcases Bool.eq_false_or_eq_true (jsTruthy st.Jaam) with hT | hT <;>
    rcases Bool.eq_false_or_eq_true (fieldsPresent st) with hF | hF <;>
      rcases Bool.eq_false_or_eq_true (isRecent getTime nowMs st) with hR | hR <;>
        simp [hT, hF, hR]

theorem foldl_entriesNamed_of_not_hasName (getTime : String → ℤ) (nowMs : ℤ) (name : String) :
    ∀ (l acc : List RawStation), hasName name acc = false →
      entriesNamed name (l.foldl (cleanStep getTime nowMs) acc) =
        entriesNamed name acc ++
          (l.find? (fun s => s.Jaam == some name && survivesFilter getTime nowMs s)).toList := by
  intro l
  induction l with
  | nil => intro acc _; simp
  | cons st l ih =>
    intro acc h
    rw [List.foldl_cons]
    by_cases hj : st.Jaam = some name
    · have hb : (st.Jaam == some name) = true := beq_iff_eq.mpr hj
      have hany : acc.any (fun p => p.Jaam == st.Jaam) = false := by
        rw [hj]; exact h
      rw [cleanStep_of_not_has getTime nowMs acc st hany]
      cases hs : survivesFilter getTime nowMs st
      · rw [if_neg (by simp [hs])]
        rw [ih acc h, List.find?_cons_of_neg _ (by simp [hb, hs])]
      · rw [if_pos (by simp [hs])]
        rw [foldl_entriesNamed_of_hasName getTime nowMs name l (acc ++ [st])
          (by rw [hasName_append_single]; simp [hb])]
        rw [entriesNamed_append_single_eq name acc st hj,
          List.find?_cons_of_pos _ (by simp [hb, hs])]
        simp
    · have hb : (st.Jaam == some name) = false := beq_eq_false_iff_ne.mpr hj
      have hfind : ((st :: l).find?
          (fun s => s.Jaam == some name && survivesFilter getTime nowMs s)) =
          l.find? (fun s => s.Jaam == some name && survivesFilter getTime nowMs s) :=
        List.find?_cons_of_neg _ (by simp [hb])
      rcases cleanStep_eq_or getTime nowMs acc st with hstep | hstep <;> rw [hstep]
      · rw [ih acc h, hfind]
      · rw [ih (acc ++ [st]) (by rw [hasName_append_single]; simp [h, hb]),
          entriesNamed_append_single_ne name acc st hj, hfind]

theorem mergeClean_entriesNamed (getTime : String → ℤ) (nowMs : ℤ) (name : String)
    (inland coastal : List RawStation) :
    entriesNamed name (mergeClean getTime nowMs inland coastal) =
      ((inland ++ coastal).find?
        (fun s => s.Jaam == some name && survivesFilter getTime nowMs s)).toList := by
  rw [mergeClean, foldl_entriesNamed_of_not_hasName getTime nowMs name
    (inland ++ coastal) [] rfl]
  rfl

theorem mergeClean_singleton (getTime : String → ℤ) (nowMs : ℤ) (st : RawStation) :
    mergeClean getTime nowMs [st] [] =
      if survivesFilter getTime nowMs st then [st] else [] := by
  have h0 : mergeClean getTime nowMs [st] [] = cleanStep getTime nowMs [] st := rfl
  rw [h0, cleanStep_of_not_has getTime nowMs [] st rfl]
  cases hs : survivesFilter getTime nowMs st <;> simp

/-- Timestamp parser of the C2 recency scenarios, relative to `Date.now()`
equal to 0 ms: "old" parses to now − 2 h − 1 s, "new" to now − 1 h. -/
def getTimeC2 : String → ℤ := fun t => if t = "old" then -7201000 else -3600000

/-- Report timestamped by the given string, all other fields valid. -/
def stAtTime (t : String) : RawStation :=
  ⟨some "Vilsandi", some "5.0", some "180.0", some t,
    some "58", some "22", some "56", some "21", some "48", some "51"⟩

/-- Report whose station-name field is the empty string (non-null) and
whose remaining fields are all valid and recent. -/
def stEmptyName : RawStation :=
  ⟨some "", some "5.0", some "180.0", some "fresh",
    some "58", some "22", some "56", some "21", some "48", some "51"⟩

/-- Constant timestamp parser mapping every string to epoch 0 ms. -/
def gtZero : String → ℤ := fun _ => 0

/-- C2 (counterexample): a report whose station name is the empty string —
present (non-null), as are all its other fields — and whose timestamp is
fresh is nonetheless dropped by the filter, so survival is not equivalent
to the claim's "all fields non-null and recent". -/
theorem merger_filter_iff_counterexample :
    ¬ (mergeClean gtZero 0 [stEmptyName] [] = [stEmptyName] ↔
      (stEmptyName.Jaam.isSome = true ∧
        stEmptyName.ws10ma.isSome = true ∧ stEmptyName.wd10ma.isSome = true ∧
        stEmptyName.LaiusKraad.isSome = true ∧ stEmptyName.PikkusKraad.isSome = true ∧
        ∃ t, stEmptyName.Time = some t ∧
          Int.fdiv (0 : ℤ) 1000 - 7200 ≤ Int.fdiv (gtZero t) 1000)) := by
  intro h
  have hm := h.mpr ⟨rfl, rfl, rfl, rfl, rfl, "fresh", rfl, by decide⟩
  exact absurd hm (by decide)

theorem survivesFilter_iff (getTime : String → ℤ) (nowMs : ℤ) (st : RawStation) :
    survivesFilter getTime nowMs st = true ↔
      ((∃ nm, st.Jaam = some nm ∧ nm ≠ "") ∧
        st.ws10ma.isSome = true ∧ st.wd10ma.isSome = true ∧
        st.LaiusKraad.isSome = true ∧ st.PikkusKraad.isSome = true ∧
        ∃ t, st.Time = some t ∧
          Int.fdiv nowMs 1000 - 7200 ≤ Int.fdiv (getTime t) 1000) := by
  obtain ⟨oj, ows, owd, ot, la1, la2, la3, pi1, pi2, pi3⟩ := st
  cases oj with
  | none => simp [survivesFilter, jsTruthy]
  | some nm =>
    cases ot with
    | none => simp [survivesFilter, fieldsPresent, jsTruthy, isRecent]
    | some t =>
      simp [survivesFilter, fieldsPresent, jsTruthy, isRecent]
      tauto

/-- C2 (amended): a raw station report survives the merger's
validity-and-recency filter iff its station name is present and
non-empty, its wind-speed, wind-direction and coordinate-degree fields
are present (non-null), and its observation timestamp parses to floored
epoch seconds no older than two hours before the floored resolution
time.  The second and third conjuncts check the claim's concrete recency
instances: a report at now − 2h − 1s is excluded, one at now − 1h is
included. -/
theorem merger_validity_recency_filter :
    (∀ (getTime : String → ℤ) (nowMs : ℤ) (st : RawStation),
      mergeClean getTime nowMs [st] [] = [st] ↔
        ((∃ nm, st.Jaam = some nm ∧ nm ≠ "") ∧
          st.ws10ma.isSome = true ∧ st.wd10ma.isSome = true ∧
          st.LaiusKraad.isSome = true ∧ st.PikkusKraad.isSome = true ∧
          ∃ t, st.Time = some t ∧
            Int.fdiv nowMs 1000 - 7200 ≤ Int.fdiv (getTime t) 1000)) ∧
    mergeClean getTimeC2 0 [stAtTime "old"] [] = [] ∧
    mergeClean getTimeC2 0 [stAtTime "new"] [] = [stAtTime "new"] := by
  refine ⟨?_, by decide, by decide⟩
  intro getTime nowMs st
  rw [mergeClean_singleton getTime nowMs st, ← survivesFilter_iff getTime nowMs st]
  constructor
  · intro h
    by_contra hc
    rw [if_neg (by simpa using hc)] at h
    exact List.cons_ne_nil st [] h.symm
  · intro hs
    rw [if_pos hs]

/-- Report named "Pirita" with a null wind-speed field (fails the merger's
validity check); first in concatenation order in the C4 scenario. -/
def stPiritaInvalid : RawStation :=
  ⟨some "Pirita", none, some "180.0", some "fresh",
    some "59", some "28", some "0", some "24", some "50", some "0"⟩

/-- Valid report named "Pirita"; second in concatenation order. -/
def stPiritaValid : RawStation :=
  ⟨some "Pirita", some "3,6", some "69.0", some "fresh",
    some "59", some "28", some "0", some "24", some "50", some "0"⟩

/-- Valid report named "Pirita" with a different payload. -/
def stPiritaValid2 : RawStation :=
  ⟨some "Pirita", some "5,0", some "120.0", some "fresh",
    some "59", some "28", some "0", some "24", some "50", some "0"⟩

/-- C4 (counterexample): when the first-listed feed's report for a name
fails the validity filter and the second-listed feed's report passes it,
the merged result keeps the second one, not the first occurrence in
concatenation order. -/
theorem merger_dedup_counterexample :
    ¬ (entriesNamed "Pirita" (mergeClean gtZero 0 [stPiritaInvalid] [stPiritaValid]) =
        [stPiritaInvalid]) ∧
    entriesNamed "Pirita" (mergeClean gtZero 0 [stPiritaInvalid] [stPiritaValid]) =
      [stPiritaValid] := by
  constructor
  · intro h
    exact absurd h (by decide)
  · decide

/-- C4 (amended): when both merged feeds contain a report with the same
station name and both reports pass the validity-and-recency filter, the
merged result contains exactly one entry for that name, namely the first
occurrence in concatenation order among the reports that pass the
filter. -/
theorem merger_dedup_first_surviving
    (getTime : String → ℤ) (nowMs : ℤ) (feed1 feed2 : List RawStation)
    (name : String) (r1 r2 : RawStation)
    (h1 : r1 ∈ feed1) (h2 : r2 ∈ feed2)
    (hn1 : r1.Jaam = some name) (hn2 : r2.Jaam = some name)
    (hs1 : survivesFilter getTime nowMs r1 = true)
    (hs2 : survivesFilter getTime nowMs r2 = true) :
    ∃ f, (feed1 ++ feed2).find?
        (fun s => s.Jaam == some name && survivesFilter getTime nowMs s) = some f ∧
      entriesNamed name (mergeClean getTime nowMs feed1 feed2) = [f] := by
  have hmem : r1 ∈ feed1 ++ feed2 := List.mem_append_left feed2 h1
  have hpred : (fun s => s.Jaam == some name && survivesFilter getTime nowMs s) r1 = true := by
    simp [hn1, hs1]
  have hsome : ((feed1 ++ feed2).find?
      (fun s => s.Jaam == some name && survivesFilter getTime nowMs s)).isSome := by
    rw [List.find?_isSome]
    exact ⟨r1, hmem, hpred⟩
  obtain ⟨f, hf⟩ := Option.isSome_iff_exists.mp hsome
  refine ⟨f, hf, ?_⟩
  rw [mergeClean_entriesNamed getTime nowMs name feed1 feed2, hf]
  rfl

/-- Witness for C4: two valid reports for "Pirita", one per feed; the
merged directory keeps exactly the inland (first-listed) one. -/
theorem merger_dedup_first_surviving_witness :
    entriesNamed "Pirita" (mergeClean gtZero 0 [stPiritaValid] [stPiritaValid2]) =
      [stPiritaValid] := by
  obtain ⟨f, hf, he⟩ := merger_dedup_first_surviving gtZero 0
    [stPiritaValid] [stPiritaValid2] "Pirita" stPiritaValid stPiritaValid2
    (by simp) (by simp) rfl rfl (by decide) (by decide)
  have hfind : (([stPiritaValid] ++ [stPiritaValid2]).find?
      (fun s => s.Jaam == some "Pirita" && survivesFilter gtZero 0 s)) =
      some stPiritaValid := by decide
  rw [hfind] at hf
  rw [he, Option.some.inj hf]

/-! ## Range Gate (src/api/wind.js, handler, lines 36-44) -/

/-- The nearest-station lookup's first entry, with the keys the handler
reads: `nimi` (name) and `kaugus` (distance, a string like "5.9"). -/
structure NearestStation where
  nimi : String
  kaugus : String
deriving Repr, DecidableEq

/-- Outcome of the 200 km check: the `OOR` sentinel (HTTP 200, not an
error), or the station passed through unchanged. -/
inductive GateResult where
  | oor
  | pass (st : NearestStation)
deriving Repr, DecidableEq

/-- JS `>` on a possibly-`NaN` left operand: `NaN > b` is false. -/
def jsGT : Option ℚ → ℚ → Bool
  | some x, b => decide (b < x)
  | none, _ => false

/-- The Range Gate of wind.js line 41: `if (parseFloat(distance) > 200)
return {error: "OOR"}`. -/
def rangeGate (st : NearestStation) : GateResult :=
  if jsGT (parseFloat st.kaugus) 200 then .oor else .pass st

/-- C7: when the distance string parses to a number `d`, the gate returns
the out-of-range sentinel iff `d` exceeds 200 km, and otherwise passes
the station through unchanged. -/
theorem range_gate_two_hundred (st : NearestStation) (d : ℚ)
    (h : parseFloat st.kaugus = some d) :
    (rangeGate st = .oor ↔ 200 < d) ∧ (rangeGate st = .pass st ↔ d ≤ 200) := by
  rw [rangeGate, h]
  by_cases hd : (200 : ℚ) < d
  · rw [if_pos (by simp [jsGT, hd])]
    constructor
    · simp [hd]
    · constructor
      · intro hc; exact absurd hc (by simp)
      · intro hc; exact absurd hc (by simp [hd])
  · rw [if_neg (by simp [jsGT, hd])]
    constructor
    · constructor
      · intro hc; exact absurd hc (by simp)
      · intro hc; exact absurd hc hd
    · simp [le_of_not_lt hd]

theorem parseFloat_dist_high : parseFloat "200.1" = some (2001 / 10) := by
  rw [parseFloat_eq_some "200.1" ⟨false, ['2', '0', '0'], ['1']⟩ (by decide)]
  norm_num [DecParsed.toRat, show digitsToNat ['2', '0', '0'] = 200 from rfl,
    show digitsToNat ['1'] = 1 from rfl]

theorem parseFloat_dist_low : parseFloat "199.9" = some (1999 / 10) := by
  rw [parseFloat_eq_some "199.9" ⟨false, ['1', '9', '9'], ['9']⟩ (by decide)]
  norm_num [DecParsed.toRat, show digitsToNat ['1', '9', '9'] = 199 from rfl,
    show digitsToNat ['9'] = 9 from rfl]

/-- Witness for C7: 199.9 km is accepted, 200.1 km is rejected. -/
theorem range_gate_two_hundred_witness :
    rangeGate ⟨"Vilsandi", "200.1"⟩ = .oor ∧
      rangeGate ⟨"Vilsandi", "199.9"⟩ = .pass ⟨"Vilsandi", "199.9"⟩ :=
  ⟨((range_gate_two_hundred ⟨"Vilsandi", "200.1"⟩ (2001 / 10)
      parseFloat_dist_high).1).mpr (by norm_num),
   ((range_gate_two_hundred ⟨"Vilsandi", "199.9"⟩ (1999 / 10)
      parseFloat_dist_low).2).mpr (by norm_num)⟩

/-! ## Coordinate Normalizer (src/api/all-stations.js, dmsToDecimal,
lines 10-15) -/

/-- Conversion of a degrees/minutes/seconds string triple to decimal
degrees: `parseFloat` each component and compute `K + M/60 + S/3600`;
any `NaN` component makes the JS sum `NaN`, modelled by `none`. -/
def dmsToDecimal (kraad minut sekund : String) : Option ℚ := do
  let K ← parseFloat kraad
  let M ← parseFloat minut
  let S ← parseFloat sekund
  pure (K + M / 60 + S / 3600)

theorem parseFloat_fifty_nine : parseFloat "59" = some 59 := by
  rw [parseFloat_eq_some "59" ⟨false, ['5', '9'], []⟩ (by decide)]
  norm_num [DecParsed.toRat, show digitsToNat ['5', '9'] = 59 from rfl,
    show digitsToNat [] = 0 from rfl]

theorem parseFloat_twenty_four : parseFloat "24" = some 24 := by
  rw [parseFloat_eq_some "24" ⟨false, ['2', '4'], []⟩ (by decide)]
  norm_num [DecParsed.toRat, show digitsToNat ['2', '4'] = 24 from rfl,
    show digitsToNat [] = 0 from rfl]

theorem parseFloat_zero : parseFloat "0" = some 0 := by
  rw [parseFloat_eq_some "0" ⟨false, ['0'], []⟩ (by decide)]
  norm_num [DecParsed.toRat, show digitsToNat ['0'] = 0 from rfl,
    show digitsToNat [] = 0 from rfl]

/-- C8: the Coordinate Normalizer maps numeric components to
`K + M/60 + S/3600`; for (59, 24, 0) it yields exactly 59.4 (= 297/5);
a non-numeric component makes the result `NaN`, and the function is
total (never an exception). -/
theorem coordinate_normalizer_dms :
    (∀ k m s K M S, parseFloat k = some K → parseFloat m = some M →
      parseFloat s = some S →
      dmsToDecimal k m s = some (K + M / 60 + S / 3600)) ∧
    dmsToDecimal "59" "24" "0" = some (297 / 5) ∧
    (∀ k m s, parseFloat k = none ∨ parseFloat m = none ∨ parseFloat s = none →
      dmsToDecimal k m s = none) := by
  have h1 : ∀ k m s K M S, parseFloat k = some K → parseFloat m = some M →
      parseFloat s = some S →
      dmsToDecimal k m s = some (K + M / 60 + S / 3600) := by
    intro k m s K M S hK hM hS
    simp [dmsToDecimal, hK, hM, hS]
  refine ⟨h1, ?_, ?_⟩
  · rw [h1 "59" "24" "0" 59 24 0 parseFloat_fifty_nine parseFloat_twenty_four
      parseFloat_zero]
    norm_num
  · rintro k m s (h | h | h)
    · simp [dmsToDecimal, h]
    · cases hk : parseFloat k <;> simp [dmsToDecimal, h, hk]
    · cases hk : parseFloat k <;> cases hm : parseFloat m <;>
        simp [dmsToDecimal, h, hk, hm]

/-! ## Full-directory mode output (src/api/all-stations.js, lines 107-125)

Only the fields claims are about appear in the portal record; latitude,
longitude and the Estonian-time formatting of `observation_time` are not
modelled (the DMS conversion itself is `dmsToDecimal` above). -/

/-- Portal record emitted for one clean station: `name` from `Jaam`,
`wind_speed` from `parseFloat(station.ws10ma)` — note: no comma
normalization here — and `wind_direction` from
`parseFloat(station.wd10ma)`. -/
structure PortalEntry where
  name : Option String
  wind_speed : Option ℚ
  wind_direction : Option ℚ
deriving Repr, DecidableEq

/-- JS `parseFloat` applied to a nullable field: `parseFloat(null)` is
`NaN`. -/
def jsParseFloatOfField : Option String → Option ℚ
  | some s => parseFloat s
  | none => none

/-- The portal-record constructor of all-stations.js lines 117-124. -/
def toPortalEntry (st : RawStation) : PortalEntry :=
  ⟨st.Jaam, jsParseFloatOfField st.ws10ma, jsParseFloatOfField st.wd10ma⟩

/-- Full-directory mode: every surviving station mapped to its portal
record (all-stations.js line 107). -/
def portalData (getTime : String → ℤ) (nowMs : ℤ)
    (inland coastal : List RawStation) : List PortalEntry :=
  (mergeClean getTime nowMs inland coastal).map toPortalEntry

theorem isDigit_not_isWhitespace (c : Char) (h : c.isDigit = true) :
    c.isWhitespace = false := by
  by_contra hw
  have hw' : c.isWhitespace = true := by
    cases hb : c.isWhitespace
    · exact absurd hb hw
    · rfl
  simp only [Char.isWhitespace, Bool.or_eq_true, decide_eq_true_eq] at hw'
  have hcase : c = ' ' ∨ c = '\t' ∨ c = '\r' ∨ c = '\n' := by tauto
  rcases hcase with hc | hc | hc | hc <;> subst hc <;> exact absurd h (by decide)

theorem isDigit_ne_of (c d : Char) (h : c.isDigit = true) (hd : d.isDigit = false) :
    c ≠ d := by
  intro hh
  rw [hh, hd] at h
  exact Bool.false_ne_true h

theorem takeDigits_all (ds : List Char) (h : ∀ c ∈ ds, c.isDigit = true) :
    takeDigits ds = (ds, []) := by
  induction ds with
  | nil => rfl
  | cons c cs ih =>
    have hc : c.isDigit = true := h c (by simp)
    have ih' := ih (fun x hx => h x (by simp [hx]))
    simp [takeDigits, hc, ih']

theorem takeDigits_append_nondigit (ds : List Char) (e : Char) (es : List Char)
    (h : ∀ c ∈ ds, c.isDigit = true) (he : e.isDigit = false) :
    takeDigits (ds ++ e :: es) = (ds, e :: es) := by
  induction ds with
  | nil => simp [takeDigits, he]
  | cons c cs ih =>
    have hc : c.isDigit = true := h c (by simp)
    have ih' := ih (fun x hx => h x (by simp [hx]))
    simp [takeDigits, hc, ih']

theorem replaceFirstCommaChars_digits (ds es : List Char)
    (h : ∀ c ∈ ds, c.isDigit = true) :
    replaceFirstCommaChars (ds ++ ',' :: es) = ds ++ '.' :: es := by
  induction ds with
  | nil => simp [replaceFirstCommaChars]
  | cons c cs ih =>
    have hc : c ≠ ',' := isDigit_ne_of c ',' (h c (by simp)) (by decide)
    have ih' := ih (fun x hx => h x (by simp [hx]))
    simp [replaceFirstCommaChars, hc, ih']

theorem parseFloatChars_digits_then (d : Char) (ds : List Char) (e : Char) (es : List Char)
    (h : ∀ c ∈ d :: ds, c.isDigit = true) (he : e.isDigit = false) (hne : e ≠ '.') :
    parseFloatChars ((d :: ds) ++ e :: es) = some ⟨false, d :: ds, []⟩ := by
  have hd : d.isDigit = true := h d (by simp)
  have hdm : d ≠ '-' := isDigit_ne_of d '-' hd (by decide)
  have hdp : d ≠ '+' := isDigit_ne_of d '+' hd (by decide)
  have htake : takeDigits (d :: (ds ++ e :: es)) = (d :: ds, e :: es) := by
    have h2 := takeDigits_append_nondigit (d :: ds) e es h he
    simpa using h2
  simp only [parseFloatChars, List.cons_append, hdm, hdp, if_false, htake]
  simp [hne]

theorem parseFloatChars_digits_dot (d : Char) (ds es : List Char)
    (h : ∀ c ∈ d :: ds, c.isDigit = true) (hes : ∀ c ∈ es, c.isDigit = true) :
    parseFloatChars ((d :: ds) ++ '.' :: es) = some ⟨false, d :: ds, es⟩ := by
  have hd : d.isDigit = true := h d (by simp)
  have hdm : d ≠ '-' := isDigit_ne_of d '-' hd (by decide)
  have hdp : d ≠ '+' := isDigit_ne_of d '+' hd (by decide)
  have htake : takeDigits (d :: (ds ++ '.' :: es)) = (d :: ds, '.' :: es) := by
    have h2 := takeDigits_append_nondigit (d :: ds) '.' es h (by decide)
    simpa using h2
  simp only [parseFloatChars, List.cons_append, hdm, hdp, if_false, htake]
  simp [takeDigits_all es hes]

theorem parseFloat_digits_comma (s : String) (d : Char) (ds es : List Char)
    (hdata : s.data = (d :: ds) ++ ',' :: es)
    (h : ∀ c ∈ d :: ds, c.isDigit = true) :
    parseFloat s = some (digitsToNat (d :: ds) : ℚ) := by
  have hw : d.isWhitespace = false := isDigit_not_isWhitespace d (h d (by simp))
  rw [parseFloat, hdata]
  simp only [List.cons_append, List.dropWhile_cons, hw, Bool.false_eq_true, if_false]
  rw [show (d :: (ds ++ ',' :: es)) = (d :: ds) ++ ',' :: es from by simp,
    parseFloatChars_digits_then d ds ',' es h (by decide) (by decide)]
  simp [DecParsed.toRat, show digitsToNat ([] : List Char) = 0 from rfl]

theorem parseFloat_replaceComma_digits (s : String) (d : Char) (ds es : List Char)
    (hdata : s.data = (d :: ds) ++ ',' :: es)
    (h : ∀ c ∈ d :: ds, c.isDigit = true) (hes : ∀ c ∈ es, c.isDigit = true) :
    parseFloat (replaceFirstComma s) =
      some ((digitsToNat (d :: ds) : ℚ) + (digitsToNat es : ℚ) / (10 : ℚ) ^ es.length) := by
  have hw : d.isWhitespace = false := isDigit_not_isWhitespace d (h d (by simp))
  have hrep : (replaceFirstComma s).data = (d :: ds) ++ '.' :: es := by
    have h0 : (replaceFirstComma s).data = replaceFirstCommaChars s.data := rfl
    rw [h0, hdata]
    exact replaceFirstCommaChars_digits (d :: ds) es h
  rw [parseFloat, hrep]
  simp only [List.cons_append, List.dropWhile_cons, hw, Bool.false_eq_true, if_false]
  rw [show (d :: (ds ++ '.' :: es)) = (d :: ds) ++ '.' :: es from by simp,
    parseFloatChars_digits_dot d ds es h hes]
  simp [DecParsed.toRat]

/-- C10: full-directory mode parses the wind-speed string without
normalizing a comma decimal separator, so a surviving report whose speed
string is digits-comma-digits is emitted with the numeric value of the
digits before the comma, whereas the nearest-station resolver normalizes
the comma to a period before parsing the same string and obtains the
full decimal value. -/
theorem portal_vs_resolver_comma
    (getTime : String → ℤ) (nowMs : ℤ) (inland coastal : List RawStation)
    (st : RawStation) (s : String) (d : Char) (ds es : List Char)
    (hmem : st ∈ mergeClean getTime nowMs inland coastal)
    (hws : st.ws10ma = some s)
    (hdata : s.data = (d :: ds) ++ ',' :: es)
    (hdigits : ∀ c ∈ d :: ds, c.isDigit = true)
    (hes : ∀ c ∈ es, c.isDigit = true) :
    (toPortalEntry st).wind_speed = some (digitsToNat (d :: ds) : ℚ) ∧
    parseFloat (replaceFirstComma s) =
      some ((digitsToNat (d :: ds) : ℚ) + (digitsToNat es : ℚ) / (10 : ℚ) ^ es.length) := by
  constructor
  · have h0 : (toPortalEntry st).wind_speed = parseFloat s := by
      rw [toPortalEntry, hws]; rfl
    rw [h0]
    exact parseFloat_digits_comma s d ds es hdata hdigits
  · exact parseFloat_replaceComma_digits s d ds es hdata hdigits hes

/-- Witness for C10: the speed string "3,6" is emitted as 3 by the
portal and parsed as 3.6 by the resolver. -/
theorem portal_vs_resolver_comma_witness :
    (toPortalEntry stPiritaValid).wind_speed = some 3 ∧
      parseFloat (replaceFirstComma "3,6") = some (18 / 5) := by
  have h := portal_vs_resolver_comma gtZero 0 [stPiritaValid] []
    stPiritaValid "3,6" '3' [] ['6']
    (by rw [show mergeClean gtZero 0 [stPiritaValid] [] = [stPiritaValid] from by decide]; simp)
    rfl rfl (by decide) (by decide)
  obtain ⟨h1, h2⟩ := h
  constructor
  · rw [h1]; norm_num [show digitsToNat ['3'] = 3 from rfl]
  · rw [h2]
    norm_num [show digitsToNat ['3'] = 3 from rfl, show digitsToNat ['6'] = 6 from rfl]

/-! ## Geodesic Ranker (src/unnamed/part_003, deg2rad and getDistance,
lines 130-155)

JavaScript `Math` trigonometry is modelled over `ℝ`: `Math.sin`,
`Math.cos`, `Math.sqrt` as their real counterparts and `Math.atan2` as
the argument of the complex number `x + y·i`. -/

/-- Degree-to-radian helper of part_003 lines 130-132. -/
noncomputable def deg2rad (deg : ℝ) : ℝ :=
  deg * (Real.pi / 180)

/-- Model of `Math.atan2 y x`. -/
noncomputable def atan2 (y x : ℝ) : ℝ :=
  Complex.arg ⟨x, y⟩

/-- Haversine great-circle distance of part_003 lines 144-155, Earth
radius 6371 km, translated term by term. -/
noncomputable def getDistance (lat1 lon1 lat2 lon2 : ℝ) : ℝ :=
  let R : ℝ := 6371
  let dLat := deg2rad (lat2 - lat1)
  let dLon := deg2rad (lon2 - lon1)
  let a :=
    Real.sin (dLat / 2) * Real.sin (dLat / 2) +
      Real.cos (deg2rad lat1) * Real.cos (deg2rad lat2) *
        Real.sin (dLon / 2) * Real.sin (dLon / 2)
  let c := 2 * atan2 (Real.sqrt a) (Real.sqrt (1 - a))
  R * c

theorem atan2_zero_one : atan2 0 1 = 0 := by
  have h : (⟨1, 0⟩ : ℂ) = 1 := by
    apply Complex.ext
    · simp
    · simp
  rw [atan2, h]
  exact Complex.arg_one

theorem getDistance_self (lat lon : ℝ) : getDistance lat lon lat lon = 0 := by
  simp [getDistance, deg2rad, atan2_zero_one]

theorem getDistance_symm (lat1 lon1 lat2 lon2 : ℝ) :
    getDistance lat1 lon1 lat2 lon2 = getDistance lat2 lon2 lat1 lon1 := by
  have hs : ∀ u v : ℝ,
      Real.sin (deg2rad (u - v) / 2) = -Real.sin (deg2rad (v - u) / 2) := by
    intro u v
    have h1 : deg2rad (u - v) = -(deg2rad (v - u)) := by
      simp [deg2rad]; ring
    rw [h1, neg_div, Real.sin_neg]
  have ha :
      Real.sin (deg2rad (lat2 - lat1) / 2) * Real.sin (deg2rad (lat2 - lat1) / 2) +
        Real.cos (deg2rad lat1) * Real.cos (deg2rad lat2) *
          Real.sin (deg2rad (lon2 - lon1) / 2) * Real.sin (deg2rad (lon2 - lon1) / 2) =
      Real.sin (deg2rad (lat1 - lat2) / 2) * Real.sin (deg2rad (lat1 - lat2) / 2) +
        Real.cos (deg2rad lat2) * Real.cos (deg2rad lat1) *
          Real.sin (deg2rad (lon1 - lon2) / 2) * Real.sin (deg2rad (lon1 - lon2) / 2) := by
    rw [hs lat2 lat1, hs lon2 lon1]
    ring
  simp only [getDistance]
  rw [ha]

/-- C9: the Geodesic Ranker's haversine distance vanishes on equal
points and is symmetric in its two points. -/
theorem geodesic_distance_self_and_symm :
    (∀ lat lon : ℝ, getDistance lat lon lat lon = 0) ∧
    (∀ lat1 lon1 lat2 lon2 : ℝ,
      getDistance lat1 lon1 lat2 lon2 = getDistance lat2 lon2 lat1 lon1) :=
  ⟨getDistance_self, getDistance_symm⟩
